import Mathlib

/-!
Shallow embedding of the mlrose-ky code under verification:

* `MIMICRunner` (src/src/mlrose_ky/runners/mimic_runner.py): the constructor
  `__init__`, the `_setup` hook, and `run`.
* `ContinuousPeaksGenerator.generate`
  (src/src/mlrose_ky/generators/continuous_peaks_generator.py).
* Spec-modelled MIMIC machinery (mutual-information matrix, dependency tree,
  conditional sampling) and discrete-problem state operators, for the claims
  whose deciding code is not under src/.

Python floats are embedded as `Rat`; the Python exception channel is the
`Except String` monad; a Python `int`-vs-`float` runtime type distinction is
the inductive `PyNum`.
-/

/-- A Python numeric value, keeping the runtime `int` / `float` distinction
that `isinstance` checks observe. -/
inductive PyNum where
  | int : Int → PyNum
  | float : Rat → PyNum
deriving DecidableEq, Repr

/-- Numeric value of a `PyNum`, as Python comparison operators see it. -/
def PyNum.toRat : PyNum → Rat
  | .int n => (n : Rat)
  | .float q => q

/-- A problem object as observed by `MIMICRunner.__init__`: whether it carries
a `set_mimic_fast_mode` attribute (`some c`, where `c` records whether the
attribute is callable; `none` if absent), the fast-mode flag that a call to
that attribute writes, and all its remaining attributes. -/
structure Problem where
  set_mimic_fast_mode_attr : Option Bool
  mimic_fast_mode : Option Bool
  other_attrs : List (String × Int)
deriving DecidableEq, Repr

/-- The effect of calling `problem.set_mimic_fast_mode(b)`: it records the
flag on the problem and touches nothing else. -/
def Problem.set_mimic_fast_mode (p : Problem) (b : Bool) : Problem :=
  { p with mimic_fast_mode := some b }

/-- The guard `hasattr(problem, "set_mimic_fast_mode") and
callable(getattr(problem, "set_mimic_fast_mode"))` from
`MIMICRunner.__init__`. -/
def Problem.hasCallableSetFastMode (p : Problem) : Bool :=
  match p.set_mimic_fast_mode_attr with
  | some true => true
  | _ => false

/-- The `mimic` algorithm object imported by the runner; the
`@short_name("mimic")` decorator names the runner class itself "mimic", and
the algorithm is passed to the grid search by reference. -/
structure Algorithm where
  short_name : String
deriving DecidableEq, Repr

/-- The `mimic` search algorithm, as the value handed to `run_experiment_`. -/
def mimicAlgorithm : Algorithm := { short_name := "mimic" }

/-- State of a `MIMICRunner` instance after `__init__`: the fields the
constructor assigns (base-class fields first, then the MIMIC-specific ones,
matching the assignment order in the source). -/
structure MIMICRunner where
  problem : Problem
  experiment_name : String
  seed : Int
  iteration_list : List Int
  max_attempts : Int
  generate_curves : Bool
  output_directory : Option String
  keep_percent_list : List Rat
  population_sizes : List Int
  _use_fast_mimic : Option Bool
deriving DecidableEq, Repr

/-- `MIMICRunner.__init__`, in the Python exception monad.  The body contains
no `raise` and no validation: it forwards the base-class arguments to
`super().__init__` (which never receives `population_sizes` or
`keep_percent_list`), stores both lists unchanged, sets `_use_fast_mimic` to
`None`, and then, only when the problem exposes a callable
`set_mimic_fast_mode`, records the flag and calls the setter on the problem.
Returns the constructed runner together with the (possibly mutated) problem
object. -/
def MIMICRunner.init (problem : Problem) (experiment_name : String)
    (seed : Int) (iteration_list : List Int) (population_sizes : List Int)
    (keep_percent_list : List Rat) (max_attempts : Int)
    (generate_curves : Bool) (use_fast_mimic : Bool)
    (output_directory : Option String) :
    Except String (MIMICRunner × Problem) :=
  let fastAvailable := problem.hasCallableSetFastMode
  let problemOut :=
    if fastAvailable then problem.set_mimic_fast_mode use_fast_mimic
    else problem
  .ok
    ({ problem := problemOut
       experiment_name := experiment_name
       seed := seed
       iteration_list := iteration_list
       max_attempts := max_attempts
       generate_curves := generate_curves
       output_directory := output_directory
       keep_percent_list := keep_percent_list
       population_sizes := population_sizes
       _use_fast_mimic :=
         if fastAvailable then some use_fast_mimic else none },
     problemOut)

/-- One logged argument, as written by `_log_current_argument`. -/
structure LogEntry where
  key : String
  val : Bool
deriving DecidableEq, Repr

/-- `MIMICRunner._setup`: it first runs `super()._setup()` (not under src/,
represented by the log entries `base` it produces) and then logs
`use_fast_mimic` exactly when `_use_fast_mimic` is not `None`. -/
def MIMICRunner._setup (base : List LogEntry) (r : MIMICRunner) :
    List LogEntry :=
  match r._use_fast_mimic with
  | some b => base ++ [{ key := "use_fast_mimic", val := b }]
  | none => base

/-- Modelled from the spec: `_RunnerBase.run_experiment_` is not under src/;
the spec describes the runners as performing a grid search over the supplied
hyperparameter grids, producing run statistics and run curves.  It is
modelled as enumerating every (population size, keep percent) combination of
the two named grids, tagged with the algorithm's short name, with the curves
present exactly when curve generation was requested. -/
def run_experiment_ (r : MIMICRunner) (algorithm : Algorithm)
    (pop_size : String × List Int) (keep_pct : String × List Rat) :
    List (String × Int × Rat) × List (String × Int × Rat) :=
  let combos := pop_size.2.flatMap fun ps =>
    keep_pct.2.map fun kp => (algorithm.short_name, ps, kp)
  (combos, if r.generate_curves then combos else [])

/-- `MIMICRunner.run`: delegates to `run_experiment_` with the `mimic`
algorithm, the stored population sizes as the "Population Size" grid and the
stored keep percents as the "Keep Percent" grid, returning its result
unchanged. -/
def MIMICRunner.run (r : MIMICRunner) :
    List (String × Int × Rat) × List (String × Int × Rat) :=
  run_experiment_ r mimicAlgorithm
    ("Population Size", r.population_sizes)
    ("Keep Percent", r.keep_percent_list)

/-- The process-wide numpy random state, abstracted to the value that
`np.random.seed` last stored (seeding discards the previous state). -/
structure NpRandom where
  state : Int
deriving DecidableEq, Repr

/-- `np.random.seed(seed)`: overwrites the global random state with a state
determined by `seed` alone. -/
def npRandomSeed (_g : NpRandom) (seed : Int) : NpRandom :=
  { state := seed }

/-- The `ContinuousPeaks` fitness object, holding its threshold. -/
structure ContinuousPeaks where
  t_pct : Rat
deriving DecidableEq, Repr

/-- A `DiscreteOpt` problem as returned by the generator.  Its constructor is
not under src/; the call site passes `length=size, fitness_fn=fitness`, and
the construction is deterministic given the just-seeded global random state,
so the instance is modelled as the record of its constructor arguments
together with the random state at construction. -/
structure DiscreteOpt where
  length : Int
  fitness_fn : ContinuousPeaks
  rng_at_construction : NpRandom
deriving DecidableEq, Repr

/-- `ContinuousPeaksGenerator.generate(seed, size, t_pct)`, threading the
global numpy random state `g`.  The checks appear in source order: `size`
must be an `int` and positive, `t_pct` must be a `float`, and `t_pct` must
lie in [0, 1]; then `np.random.seed(seed)` runs and the problem is built
from a `ContinuousPeaks(t_pct=t_pct)` fitness with `length=size`. -/
def ContinuousPeaksGenerator.generate (g : NpRandom) (seed : Int)
    (size : PyNum) (t_pct : PyNum) :
    Except String (DiscreteOpt × NpRandom) :=
  match size with
  | .float _ => .error "Size must be a positive integer."
  | .int n =>
    if n ≤ 0 then .error "Size must be a positive integer."
    else
      match t_pct with
      | .int _ => .error "Threshold percentage must be a float."
      | .float q =>
        if 0 ≤ q ∧ q ≤ 1 then
          let seeded := npRandomSeed g seed
          .ok ({ length := n
                 fitness_fn := { t_pct := q }
                 rng_at_construction := seeded }, seeded)
        else .error "Threshold percentage must be between 0 and 1."

/-! ## Spec-modelled discrete-problem operators and MIMIC machinery

`DiscreteOpt`'s state operators and the `mimic` algorithm are not under
src/; the definitions below are modelled from the spec (sections 3, 4.1,
4.5).  Randomness is an explicit deterministic generator state. -/

/-- Modelled from the spec: the single seedable pseudo-random generator.  A
linear congruential step stands in for the numpy Mersenne Twister; all that
the claims use is that it is a deterministic function of its state. -/
def lcg (s : Nat) : Nat := (s * 1103515245 + 12345) % 2147483648

/-- Modelled from the spec: draw a value uniformly below `k` (0 when `k` is
0), returning the value and the advanced generator state. -/
def randBelow (s k : Nat) : Nat × Nat :=
  (if k = 0 then 0 else lcg s % k, lcg s)

/-- Modelled from the spec: a pseudo-uniform rational in [0, 1), for sampling
from a probability table. -/
def ratUnit (s : Nat) : Rat × Nat :=
  (((lcg s % 1000000 : Nat) : Rat) / 1000000, lcg s)

/-- A discrete state is legal for a problem when its length equals the
declared length and every value lies in the declared alphabet
0, ..., max_val - 1. -/
def validState (len max_val : Nat) (st : List Nat) : Prop :=
  st.length = len ∧ ∀ v ∈ st, v < max_val

instance (len max_val : Nat) (st : List Nat) :
    Decidable (validState len max_val st) := by
  unfold validState; infer_instance

/-- Modelled from the spec: `random_state` draws a state uniformly from the
legal encoding space — one independent draw below `max_val` per position. -/
def random_state (len max_val : Nat) (s : Nat) : List Nat × Nat :=
  match len with
  | 0 => ([], s)
  | n + 1 =>
    let d := randBelow s max_val
    let rest := random_state n max_val d.2
    (d.1 :: rest.1, rest.2)

/-- Modelled from the spec: `random_neighbor` for discrete encodings flips
one uniformly chosen position to a different legal value chosen uniformly
(realised as the old value shifted by 1 + a draw below max_val - 1, modulo
max_val). -/
def random_neighbor (max_val : Nat) (st : List Nat) (s : Nat) :
    List Nat × Nat :=
  let pos := randBelow s st.length
  let shift := randBelow pos.2 (max_val - 1)
  (st.set pos.1 ((st.getD pos.1 0 + 1 + shift.1) % max_val), shift.2)

/-- Modelled from the spec: the re-draw of one position during mutation —
with probability pn/pd (decided by a draw below pd) the value is replaced by
a fresh uniform draw below max_val, otherwise it is kept. -/
def mutateOne (max_val pn pd : Nat) (x s : Nat) : Nat × Nat :=
  if (randBelow s pd).1 < pn then randBelow (randBelow s pd).2 max_val
  else (x, (randBelow s pd).2)

/-- Modelled from the spec: `mutate` independently re-draws each position
with probability `mutation_prob` (given as the fraction pn/pd). -/
def mutate (max_val pn pd : Nat) : List Nat → Nat → List Nat × Nat
  | [], s => ([], s)
  | x :: xs, s =>
    ((mutateOne max_val pn pd x s).1 ::
      (mutate max_val pn pd xs (mutateOne max_val pn pd x s).2).1,
     (mutate max_val pn pd xs (mutateOne max_val pn pd x s).2).2)

/-- Modelled from the spec: count of kept-set members whose position `i`
holds value `v` (the frequency behind the smoothed tables). -/
def countVal (kept : List (List Nat)) (i v : Nat) : Nat :=
  (kept.filter fun st => st.getD i 0 = v).length

/-- Modelled from the spec: count of kept-set members with value `cv` at the
child position and `pv` at the parent position. -/
def countPair (kept : List (List Nat)) (child cv parent pv : Nat) : Nat :=
  (kept.filter fun st => st.getD child 0 = cv ∧ st.getD parent 0 = pv).length

/-- Modelled from the spec: the root's unconditional marginal over the
alphabet, with Laplace smoothing (pseudocount 1 per category). -/
def marginalTable (max_val : Nat) (kept : List (List Nat)) (i : Nat) :
    List Rat :=
  (List.range max_val).map fun v =>
    ((countVal kept i v + 1 : Nat) : Rat) / ((kept.length + max_val : Nat) : Rat)

/-- Modelled from the spec: the conditional table P(child = v | parent = pv)
estimated from the kept set with the same Laplace smoothing. -/
def condTable (max_val : Nat) (kept : List (List Nat))
    (child parent pv : Nat) : List Rat :=
  (List.range max_val).map fun v =>
    ((countPair kept child v parent pv + 1 : Nat) : Rat) /
      ((countVal kept parent pv + max_val : Nat) : Rat)

/-- Modelled from the spec: draw an index from a probability table by
inverse-cumulative lookup; the last bucket absorbs any remainder, so the
result is always an index of the table (0 for an empty table). -/
def drawFrom : List Rat → Rat → Nat
  | [], _ => 0
  | [_], _ => 0
  | p :: q :: ps, r => if r < p then 0 else 1 + drawFrom (q :: ps) (r - p)

/-- Modelled from the spec: Prim-style maximum-spanning-tree edge candidates —
every (tree node, outside node) pair, in deterministic order. -/
def mstCandidates (w : Nat → Nat → Rat) (inTree outside : List Nat) :
    List (Nat × Nat × Rat) :=
  inTree.flatMap fun p => outside.map fun c => (p, c, w p c)

/-- Modelled from the spec: pick the maximum-weight candidate; ties are
broken deterministically in favour of the earliest candidate (lowest
position-index pair), as the spec requires for reproducibility. -/
def pickBest (cands : List (Nat × Nat × Rat)) : Option (Nat × Nat) :=
  (cands.foldl
    (fun acc e =>
      match acc with
      | none => some e
      | some b => if b.2.2 < e.2.2 then some e else some b)
    none).map fun e => (e.1, e.2.1)

/-- Modelled from the spec: the Prim loop — repeatedly attach the best
outside node to the tree, recording directed (parent, child) edges in
insertion order (so every parent appears in the tree before its child). -/
def primLoop (w : Nat → Nat → Rat) :
    Nat → List Nat → List Nat → List (Nat × Nat) → List (Nat × Nat)
  | 0, _, _, acc => acc.reverse
  | fuel + 1, inTree, outside, acc =>
    match pickBest (mstCandidates w inTree outside) with
    | none => acc.reverse
    | some e =>
      primLoop w fuel (inTree ++ [e.2]) (outside.erase e.2) (e :: acc)

/-- Modelled from the spec: the maximum-spanning dependency tree over the
`len` positions with root 0, as a directed edge list oriented away from the
root. -/
def buildTree (len : Nat) (w : Nat → Nat → Rat) : List (Nat × Nat) :=
  if len = 0 then [] else
    primLoop w (len - 1) [0] ((List.range len).drop 1) []

/-- Modelled from the spec: sample one state by traversing the tree from the
root, drawing the root from its marginal and each child from its conditional
table given the already-sampled parent value. -/
def sampleOne (len max_val : Nat) (kept : List (List Nat))
    (edges : List (Nat × Nat)) (s : Nat) : List Nat × Nat :=
  let r0 := ratUnit s
  let start :=
    (List.replicate len 0).set 0 (drawFrom (marginalTable max_val kept 0) r0.1)
  edges.foldl
    (fun acc e =>
      let r := ratUnit acc.2
      (acc.1.set e.2
        (drawFrom (condTable max_val kept e.2 e.1 (acc.1.getD e.1 0)) r.1),
       r.2))
    (start, r0.2)

/-- Modelled from the spec: sample a population of `pop_size` states from the
tree model, threading the generator state. -/
def samplePop (len max_val : Nat) (kept : List (List Nat))
    (edges : List (Nat × Nat)) : Nat → Nat → List (List Nat) × Nat
  | 0, s => ([], s)
  | n + 1, s =>
    let one := sampleOne len max_val kept edges s
    let rest := samplePop len max_val kept edges n one.2
    (one.1 :: rest.1, rest.2)

/-- Modelled from the spec: one MIMIC generation after the kept set is
selected — build the dependency tree from the pairwise mutual-information
weights `w`, then sample the next population; returns the tree and the
population. -/
def mimicGeneration (len max_val : Nat) (kept : List (List Nat))
    (w : Nat → Nat → Rat) (pop_size s : Nat) :
    List (Nat × Nat) × List (List Nat) :=
  let edges := buildTree len w
  (edges, (samplePop len max_val kept edges pop_size s).1)

/-- Modelled from the spec: the fast mode's mutual-information matrix —
recompute only the pairs invalidated by the last tree update (`stale`),
reusing the cached value for every other pair. -/
def fastMI (trueMI cache : Nat → Nat → Rat) (stale : Nat → Nat → Bool)
    (i j : Nat) : Rat :=
  if stale i j then trueMI i j else cache i j

/-! ## Theorems for the claims about MIMICRunner -/

/-- Claim C1, counterexample: constructing a MIMICRunner with keep percent 2
(outside [0, 1]) and population size 0 (less than 1) does not fail fast —
the constructor returns normally and stores both invalid values for later
use. -/
theorem mimicRunnerInit_accepts_invalid_grid :
    ∃ rp : MIMICRunner × Problem,
      MIMICRunner.init
        { set_mimic_fast_mode_attr := some true, mimic_fast_mode := none,
          other_attrs := [] }
        "exp" 1 [1] [0] [2] 5 true true none = .ok rp ∧
      rp.1.keep_percent_list = [2] ∧ rp.1.population_sizes = [0] :=
  ⟨_, rfl, rfl, rfl⟩

/-- Claim C1, amended: MIMICRunner construction performs no validation of
`keep_percent_list` or `population_sizes` — for every input, including
values outside [0, 1] or below 1, construction succeeds and both lists are
stored exactly as given (never clamped and never rejected). -/
theorem mimicRunnerInit_stores_lists_unvalidated (p : Problem)
    (en : String) (seed : Int) (il ps : List Int) (kpl : List Rat)
    (ma : Int) (gc ufm : Bool) (od : Option String) :
    ∃ rp : MIMICRunner × Problem,
      MIMICRunner.init p en seed il ps kpl ma gc ufm od = .ok rp ∧
      rp.1.keep_percent_list = kpl ∧ rp.1.population_sizes = ps :=
  ⟨_, rfl, rfl, rfl⟩

/-- Claim C2: the constructor records `_use_fast_mimic = use_fast_mimic` and
calls `problem.set_mimic_fast_mode(use_fast_mimic)` exactly when the problem
carries a callable `set_mimic_fast_mode` attribute; for every other problem
`_use_fast_mimic` stays `None`, the problem is returned untouched, and
construction still completes normally. -/
theorem mimicRunnerInit_fast_mode_capability (p : Problem)
    (en : String) (seed : Int) (il ps : List Int) (kpl : List Rat)
    (ma : Int) (gc ufm : Bool) (od : Option String) :
    ∃ rp : MIMICRunner × Problem,
      MIMICRunner.init p en seed il ps kpl ma gc ufm od = .ok rp ∧
      rp.1._use_fast_mimic =
        (if p.hasCallableSetFastMode then some ufm else none) ∧
      rp.2 = (if p.hasCallableSetFastMode
              then p.set_mimic_fast_mode ufm else p) :=
  ⟨_, rfl, rfl, rfl⟩

/-- Claim C9: construction mutates the caller's problem only through
`set_mimic_fast_mode` — when the callable toggle exists the fast-mode flag
is written with `use_fast_mimic`, and in every case all other attributes of
the problem are left exactly as they were (and without the toggle the
problem is unchanged entirely). -/
theorem mimicRunnerInit_frame_effect (p : Problem)
    (en : String) (seed : Int) (il ps : List Int) (kpl : List Rat)
    (ma : Int) (gc ufm : Bool) (od : Option String) :
    ∃ rp : MIMICRunner × Problem,
      MIMICRunner.init p en seed il ps kpl ma gc ufm od = .ok rp ∧
      rp.2.other_attrs = p.other_attrs ∧
      rp.2.set_mimic_fast_mode_attr = p.set_mimic_fast_mode_attr ∧
      rp.2.mimic_fast_mode =
        (if p.hasCallableSetFastMode then some ufm else p.mimic_fast_mode) := by
  refine ⟨_, rfl, ?_, ?_, ?_⟩ <;>
    cases h : p.hasCallableSetFastMode <;>
      simp [MIMICRunner.init, Problem.set_mimic_fast_mode, h]

/-- Claim C10: `_setup` appends a `use_fast_mimic` log entry after the base
logs exactly when the problem exposed the callable toggle at construction;
without the toggle the caller's `use_fast_mimic` value is dropped with no
log entry at all. -/
theorem mimicRunnerSetup_logs_iff_toggle (base : List LogEntry) (p : Problem)
    (en : String) (seed : Int) (il ps : List Int) (kpl : List Rat)
    (ma : Int) (gc ufm : Bool) (od : Option String) :
    ∃ rp : MIMICRunner × Problem,
      MIMICRunner.init p en seed il ps kpl ma gc ufm od = .ok rp ∧
      MIMICRunner._setup base rp.1 =
        base ++ (if p.hasCallableSetFastMode
                 then [{ key := "use_fast_mimic", val := ufm }] else []) := by
  refine ⟨_, rfl, ?_⟩
  cases h : p.hasCallableSetFastMode <;>
    simp [MIMICRunner.init, MIMICRunner._setup, h]

/-- Claim C7: `run` delegates to `run_experiment_` with the mimic algorithm,
supplying exactly the constructor's `population_sizes` as the "Population
Size" grid and `keep_percent_list` as the "Keep Percent" grid, and returns
the resulting (run statistics, run curves) pair unchanged. -/
theorem mimicRunnerRun_delegates_grid (p : Problem)
    (en : String) (seed : Int) (il ps : List Int) (kpl : List Rat)
    (ma : Int) (gc ufm : Bool) (od : Option String) :
    ∃ rp : MIMICRunner × Problem,
      MIMICRunner.init p en seed il ps kpl ma gc ufm od = .ok rp ∧
      rp.1.run = run_experiment_ rp.1 mimicAlgorithm
        ("Population Size", ps) ("Keep Percent", kpl) :=
  ⟨_, rfl, rfl⟩

/-! ## Theorems for the claims about ContinuousPeaksGenerator.generate -/

/-- Claim C3: `generate` raises ValueError with a descriptive message (and
constructs no problem) whenever `size` is not a positive integer or `t_pct`
lies outside [0, 1]; on every valid input it returns a `DiscreteOpt` of
length exactly `size`, built from a `ContinuousPeaks` fitness whose
threshold is exactly `t_pct` — neither argument clamped. -/
theorem continuousPeaksGenerate_validation (g : NpRandom) (seed : Int)
    (size t_pct : PyNum) :
    ((∀ n : Int, size = .int n → n ≤ 0 →
        ∃ msg, msg ≠ "" ∧
          ContinuousPeaksGenerator.generate g seed size t_pct = .error msg) ∧
     (∀ q : Rat, size = .float q →
        ∃ msg, msg ≠ "" ∧
          ContinuousPeaksGenerator.generate g seed size t_pct = .error msg) ∧
     (t_pct.toRat < 0 ∨ 1 < t_pct.toRat →
        ∃ msg, msg ≠ "" ∧
          ContinuousPeaksGenerator.generate g seed size t_pct = .error msg)) ∧
    (∀ (n : Int) (q : Rat), size = .int n → 0 < n → t_pct = .float q →
      0 ≤ q → q ≤ 1 →
      ContinuousPeaksGenerator.generate g seed size t_pct =
        .ok ({ length := n, fitness_fn := { t_pct := q },
               rng_at_construction := { state := seed } },
             { state := seed })) := by
  constructor
  · refine ⟨?_, ?_, ?_⟩
    · rintro n rfl hn
      exact ⟨"Size must be a positive integer.", by simp,
        by simp [ContinuousPeaksGenerator.generate, hn]⟩
    · rintro q rfl
      exact ⟨"Size must be a positive integer.", by simp, rfl⟩
    · intro hout
      cases size with
      | float q => exact ⟨"Size must be a positive integer.", by simp, rfl⟩
      | int n =>
        by_cases hn : n ≤ 0
        · exact ⟨"Size must be a positive integer.", by simp,
            by simp [ContinuousPeaksGenerator.generate, hn]⟩
        · cases t_pct with
          | int m =>
            exact ⟨"Threshold percentage must be a float.", by simp,
              by simp [ContinuousPeaksGenerator.generate, hn]⟩
          | float q =>
            have hq : ¬(0 ≤ q ∧ q ≤ 1) := by
              rcases hout with h | h
              · exact fun hc => absurd hc.1 (not_le.mpr h)
              · exact fun hc => absurd hc.2 (not_le.mpr h)
            exact ⟨"Threshold percentage must be between 0 and 1.", by simp,
              by simp [ContinuousPeaksGenerator.generate, hn, hq]⟩
  · rintro n q rfl hn rfl h0 h1
    simp [ContinuousPeaksGenerator.generate, not_le.mpr hn, h0, h1,
      npRandomSeed]

/-- Witness for claim C3: the valid call generate(seed=42, size=20,
t_pct=0.1) returns the unclamped problem. -/
theorem continuousPeaksGenerate_validation_w :
    ContinuousPeaksGenerator.generate { state := 0 } 42
      (.int 20) (.float (1 / 10)) =
      .ok ({ length := 20, fitness_fn := { t_pct := 1 / 10 },
             rng_at_construction := { state := 42 } },
           { state := 42 }) :=
  (continuousPeaksGenerate_validation { state := 0 } 42
      (.int 20) (.float (1 / 10))).2 20 (1 / 10) rfl (by norm_num) rfl
    (by norm_num) (by norm_num)

/-- Claim C8: a non-float `t_pct` — including the integers 0 and 1, which lie
inside the documented [0, 1] range — always makes `generate` raise
ValueError; only a float-typed `t_pct` can ever pass validation. -/
theorem continuousPeaksGenerate_rejects_nonfloat (g : NpRandom) (seed : Int)
    (size : PyNum) :
    (∀ n : Int, ∃ msg,
        ContinuousPeaksGenerator.generate g seed size (.int n) = .error msg) ∧
    (∀ t out, ContinuousPeaksGenerator.generate g seed size t = .ok out →
        ∃ q, t = PyNum.float q) := by
  constructor
  · intro n
    cases size with
    | float q => exact ⟨"Size must be a positive integer.", rfl⟩
    | int m =>
      by_cases hm : m ≤ 0
      · exact ⟨"Size must be a positive integer.",
          by simp [ContinuousPeaksGenerator.generate, hm]⟩
      · exact ⟨"Threshold percentage must be a float.",
          by simp [ContinuousPeaksGenerator.generate, hm]⟩
  · intro t out hok
    cases t with
    | float q => exact ⟨q, rfl⟩
    | int n =>
      exfalso
      cases size with
      | float q => simp [ContinuousPeaksGenerator.generate] at hok
      | int m =>
        by_cases hm : m ≤ 0 <;>
          simp [ContinuousPeaksGenerator.generate, hm] at hok

/-- Witness for claim C8: at size 20 the integer threshold 0 — inside
[0, 1] — is rejected, and the float threshold 1/2 that passed validation is
indeed float-typed. -/
theorem continuousPeaksGenerate_rejects_nonfloat_w :
    (∃ msg, ContinuousPeaksGenerator.generate { state := 0 } 42
        (.int 20) (.int 0) = .error msg) ∧
    (∃ q, PyNum.float (1 / 2) = PyNum.float q) :=
  ⟨(continuousPeaksGenerate_rejects_nonfloat { state := 0 } 42 (.int 20)).1 0,
   (continuousPeaksGenerate_rejects_nonfloat { state := 0 } 42 (.int 20)).2
     (.float (1 / 2))
     ({ length := 20, fitness_fn := { t_pct := 1 / 2 },
        rng_at_construction := { state := 42 } }, { state := 42 })
     (by norm_num [ContinuousPeaksGenerator.generate, npRandomSeed])⟩

/-- Claim C5: the result of `generate` is independent of the pre-existing
global random state — the generator seeds it from `seed` before
construction — so two independent calls with identical seed, size and t_pct
return identical problem instances and identical posterior random states,
and every subsequent observation of the two results coincides. -/
theorem continuousPeaksGenerate_reproducible (g1 g2 : NpRandom) (seed : Int)
    (size t_pct : PyNum) :
    ContinuousPeaksGenerator.generate g1 seed size t_pct =
      ContinuousPeaksGenerator.generate g2 seed size t_pct ∧
    ∀ (α : Type) (op : Except String (DiscreteOpt × NpRandom) → α),
      op (ContinuousPeaksGenerator.generate g1 seed size t_pct) =
        op (ContinuousPeaksGenerator.generate g2 seed size t_pct) := by
  have h : ContinuousPeaksGenerator.generate g1 seed size t_pct =
      ContinuousPeaksGenerator.generate g2 seed size t_pct := by
    cases size with
    | float q => rfl
    | int n =>
      cases t_pct <;> simp [ContinuousPeaksGenerator.generate, npRandomSeed]
  exact ⟨h, fun α op => congrArg op h⟩

/-! ## Supporting lemmas for the MIMIC claims -/

theorem randBelow_lt (s k : Nat) (hk : 0 < k) : (randBelow s k).1 < k := by
  have hne : k ≠ 0 := Nat.pos_iff_ne_zero.mp hk
  simp only [randBelow, hne, if_false]
  exact Nat.mod_lt _ hk

theorem validState_set (len mv : Nat) (st : List Nat) (i v : Nat)
    (hst : validState len mv st) (hv : v < mv) :
    validState len mv (st.set i v) := by
  obtain ⟨hl, hb⟩ := hst
  refine ⟨by simp [hl], fun x hx => ?_⟩
  rcases List.mem_or_eq_of_mem_set hx with h | h
  · exact hb x h
  · exact h ▸ hv

theorem drawFrom_lt :
    ∀ (probs : List Rat) (r : Rat), probs ≠ [] →
      drawFrom probs r < probs.length
  | [], _, h => absurd rfl h
  | [_], _, _ => by simp [drawFrom]
  | p :: q :: ps, r, _ => by
    by_cases hr : r < p
    · simp [drawFrom, hr]
    · have ih := drawFrom_lt (q :: ps) (r - p) (by simp)
      simp only [drawFrom, hr, if_false, List.length_cons] at ih ⊢
      omega

theorem marginalTable_length (mv : Nat) (kept : List (List Nat)) (i : Nat) :
    (marginalTable mv kept i).length = mv := by
  simp [marginalTable]

theorem condTable_length (mv : Nat) (kept : List (List Nat))
    (child parent pv : Nat) :
    (condTable mv kept child parent pv).length = mv := by
  simp [condTable]

theorem drawFrom_table_lt (mv : Nat) (t : List Rat) (r : Rat)
    (ht : t.length = mv) (hmv : 0 < mv) : drawFrom t r < mv := by
  have hne : t ≠ [] := by
    intro he
    rw [he] at ht
    simp at ht
    omega
  have := drawFrom_lt t r hne
  omega

theorem random_state_valid (mv : Nat) (hmv : 0 < mv) :
    ∀ (len s : Nat), validState len mv (random_state len mv s).1
  | 0, _ => ⟨rfl, by simp [random_state]⟩
  | n + 1, s => by
    obtain ⟨ih1, ih2⟩ := random_state_valid mv hmv n (randBelow s mv).2
    refine ⟨?_, ?_⟩
    · simp only [random_state, List.length_cons]
      omega
    · intro v hv
      simp only [random_state, List.mem_cons] at hv
      rcases hv with h | h
      · exact h ▸ randBelow_lt s mv hmv
      · exact ih2 v h

theorem random_neighbor_valid (len mv : Nat) (hmv : 0 < mv)
    (st : List Nat) (s : Nat) (hst : validState len mv st) :
    validState len mv (random_neighbor mv st s).1 := by
  unfold random_neighbor
  exact validState_set len mv st _ _ hst (Nat.mod_lt _ hmv)

theorem mutateOne_lt (mv pn pd : Nat) (hmv : 0 < mv) (x s : Nat)
    (hx : x < mv) : (mutateOne mv pn pd x s).1 < mv := by
  unfold mutateOne
  split
  · exact randBelow_lt _ mv hmv
  · exact hx

theorem mutate_valid (mv pn pd : Nat) (hmv : 0 < mv) :
    ∀ (st : List Nat) (s : Nat), (∀ v ∈ st, v < mv) →
      (mutate mv pn pd st s).1.length = st.length ∧
      ∀ v ∈ (mutate mv pn pd st s).1, v < mv
  | [], _, _ => by simp [mutate]
  | x :: xs, s, hb => by
    have hx : x < mv := hb x (List.mem_cons_self x xs)
    have hxs : ∀ v ∈ xs, v < mv := fun v hv => hb v (List.mem_cons_of_mem x hv)
    obtain ⟨ih1, ih2⟩ :=
      mutate_valid mv pn pd hmv xs (mutateOne mv pn pd x s).2 hxs
    refine ⟨?_, ?_⟩
    · simp only [mutate, List.length_cons, ih1]
    · intro v hv
      simp only [mutate, List.mem_cons] at hv
      rcases hv with h | h
      · exact h ▸ mutateOne_lt mv pn pd hmv x s hx
      · exact ih2 v h

theorem sampleFold_valid (len mv : Nat) (hmv : 0 < mv)
    (kept : List (List Nat)) :
    ∀ (es : List (Nat × Nat)) (acc : List Nat × Nat),
      validState len mv acc.1 →
      validState len mv ((es.foldl
        (fun acc e =>
          let r := ratUnit acc.2
          (acc.1.set e.2
            (drawFrom (condTable mv kept e.2 e.1 (acc.1.getD e.1 0)) r.1),
           r.2)) acc).1)
  | [], _, h => h
  | e :: es, acc, h => by
    apply sampleFold_valid len mv hmv kept es
    exact validState_set len mv acc.1 _ _ h
      (drawFrom_table_lt mv _ _ (condTable_length mv kept e.2 e.1 _) hmv)

theorem sampleOne_valid (len mv : Nat) (hmv : 0 < mv)
    (kept : List (List Nat)) (edges : List (Nat × Nat)) (s : Nat) :
    validState len mv (sampleOne len mv kept edges s).1 := by
  unfold sampleOne
  apply sampleFold_valid len mv hmv kept edges
  refine validState_set len mv _ _ _ ⟨List.length_replicate len 0, ?_⟩
    (drawFrom_table_lt mv _ _ (marginalTable_length mv kept 0) hmv)
  intro v hv
  have := List.eq_of_mem_replicate hv
  omega

theorem samplePop_valid (len mv : Nat) (hmv : 0 < mv)
    (kept : List (List Nat)) (edges : List (Nat × Nat)) :
    ∀ (n s : Nat) (st : List Nat),
      st ∈ (samplePop len mv kept edges n s).1 → validState len mv st
  | 0, _, _, h => by simp [samplePop] at h
  | n + 1, s, st, h => by
    simp only [samplePop, List.mem_cons] at h
    rcases h with h | h
    · exact h ▸ sampleOne_valid len mv hmv kept edges s
    · exact samplePop_valid len mv hmv kept edges n _ st h

/-! ## Theorems for the MIMIC claims -/

/-- Claim C6: for a valid discrete problem (non-empty alphabet), every state
produced by `random_state`, `random_neighbor`, `mutate`, and MIMIC sampling
has length equal to the declared length and every position's value inside
the declared alphabet. -/
theorem discreteState_invariants (len max_val : Nat) (hmv : 0 < max_val) :
    (∀ s : Nat, validState len max_val (random_state len max_val s).1) ∧
    (∀ (st : List Nat) (s : Nat), validState len max_val st →
      validState len max_val (random_neighbor max_val st s).1) ∧
    (∀ (pn pd : Nat) (st : List Nat) (s : Nat), validState len max_val st →
      validState len max_val (mutate max_val pn pd st s).1) ∧
    (∀ (kept : List (List Nat)) (w : Nat → Nat → Rat) (pop_size s : Nat)
      (st : List Nat),
      st ∈ (mimicGeneration len max_val kept w pop_size s).2 →
      validState len max_val st) := by
  refine ⟨fun s => random_state_valid max_val hmv len s,
    fun st s hst => random_neighbor_valid len max_val hmv st s hst,
    fun pn pd st s hst => ?_, fun kept w pop_size s st hst => ?_⟩
  · obtain ⟨hl, hb⟩ := hst
    obtain ⟨h1, h2⟩ := mutate_valid max_val pn pd hmv st s hb
    exact ⟨by omega, h2⟩
  · exact samplePop_valid len max_val hmv kept (buildTree len w)
      pop_size s st hst

/-- Witness for claim C6: the invariants evaluated for a length-3 binary
problem on concrete generator states. -/
theorem discreteState_invariants_w :
    validState 3 2 (random_state 3 2 7).1 ∧
    validState 3 2 (random_neighbor 2 [0, 1, 0] 5).1 ∧
    validState 3 2 (mutate 2 1 2 [0, 1, 0] 9).1 :=
  ⟨(discreteState_invariants 3 2 (by decide)).1 7,
   (discreteState_invariants 3 2 (by decide)).2.1 [0, 1, 0] 5 (by decide),
   (discreteState_invariants 3 2 (by decide)).2.2.1 1 2 [0, 1, 0] 9
     (by decide)⟩

/-- Claim C4: under fast mode's cache invariant — every pair not marked
stale holds the true mutual information of the current kept set — the
fast-mode matrix coincides with full recomputation, so a MIMIC generation
(dependency tree and sampled population, hence also every downstream best
state and best fitness) is identical in the two modes; they can differ only
in computational cost. -/
theorem mimicFastMode_produces_identical_generation
    (len max_val : Nat) (kept : List (List Nat))
    (trueMI cache : Nat → Nat → Rat) (stale : Nat → Nat → Bool)
    (pop_size s : Nat)
    (hinv : ∀ i j, stale i j = false → cache i j = trueMI i j) :
    mimicGeneration len max_val kept (fastMI trueMI cache stale) pop_size s =
      mimicGeneration len max_val kept trueMI pop_size s := by
  have hw : fastMI trueMI cache stale = trueMI := by
    funext i j
    by_cases hst : stale i j = true
    · simp [fastMI, hst]
    · have hf : stale i j = false := by simpa using hst
      simp [fastMI, hf, hinv i j hf]
  rw [hw]

/-- A concrete mutual-information weight function for the fast-mode
witness. -/
def witnessMI : Nat → Nat → Rat := fun i j => ((i + 2 * j : Nat) : Rat)

/-- A stale-pair marking for the fast-mode witness: nothing invalidated, the
whole cache current. -/
def witnessStale : Nat → Nat → Bool := fun _ _ => false

/-- Witness for claim C4: on a 3-position binary problem with a current
cache, the fast-mode generation equals the full recomputation. -/
theorem mimicFastMode_produces_identical_generation_w :
    mimicGeneration 3 2 [[0, 1, 0]] (fastMI witnessMI witnessMI witnessStale)
      2 0 = mimicGeneration 3 2 [[0, 1, 0]] witnessMI 2 0 :=
  mimicFastMode_produces_identical_generation 3 2 [[0, 1, 0]]
    witnessMI witnessMI witnessStale 2 0 (fun _ _ _ => rfl)
